import Mathlib

/-!
Verification development for the PyWaterBal soil water balance model
(soilwater.py).  The definitions below are shallow embeddings of the
functions of the source; machine floats are modelled by exact rationals
or reals.  Claims about the code are stated and settled as theorems
about these definitions.
-/

namespace PyWaterBal

/-! ## Saxton and Rawls (2008) texture regression, soilwater.py lines 156-191.

The Python code converts sand and clay from percent to fraction
(s = sand / 100, c = clay / 100) while om stays in percent, then applies
the regression polynomials.  Each definition below reproduces one of the
intermediate quantities of SoilLayer.initialize_layer step 2. -/

/-- Regression estimate theta1500t of initialize_layer (lines 161-163). -/
def theta1500t (clay sand om : ℚ) : ℚ :=
  (-0.024 * (sand / 100) + 0.487 * (clay / 100) + 0.006 * om)
    + (0.005 * ((sand / 100) * om) - 0.013 * ((clay / 100) * om)
        + 0.068 * ((sand / 100) * (clay / 100)) + 0.031)

/-- Corrected wilting point estimate theta1500 (line 164), before calibration. -/
def theta1500 (clay sand om : ℚ) : ℚ :=
  theta1500t clay sand om + (0.14 * theta1500t clay sand om - 0.02)

/-- Regression estimate theta33t of initialize_layer (lines 165-167). -/
def theta33t (clay sand om : ℚ) : ℚ :=
  (-0.251 * (sand / 100) + 0.195 * (clay / 100) + 0.011 * om)
    + (0.006 * ((sand / 100) * om) - 0.027 * ((clay / 100) * om)
        + 0.452 * ((sand / 100) * (clay / 100)) + 0.299)

/-- Corrected field capacity estimate theta33 (line 168), before calibration. -/
def theta33 (clay sand om : ℚ) : ℚ :=
  theta33t clay sand om
    + (1.283 * theta33t clay sand om ^ 2 - 0.374 * theta33t clay sand om - 0.015)

/-- Regression estimate theta_s33t of initialize_layer (lines 169-171). -/
def theta_s33t (clay sand om : ℚ) : ℚ :=
  (0.278 * (sand / 100) + 0.034 * (clay / 100) + 0.022 * om)
    + (-0.018 * ((sand / 100) * om) - 0.027 * ((clay / 100) * om)
        - 0.584 * ((sand / 100) * (clay / 100)) + 0.078)

/-- Corrected estimate theta_s33 (line 172). -/
def theta_s33 (clay sand om : ℚ) : ℚ :=
  theta_s33t clay sand om + 0.636 * theta_s33t clay sand om - 0.107

/-- Saturation estimate theta0 (line 173), before calibration. -/
def theta0 (clay sand om : ℚ) : ℚ :=
  theta33 clay sand om + theta_s33 clay sand om - 0.097 * (sand / 100) + 0.043

/-- Calibrated permanent wilting point stored as swc.pwp (line 186). -/
def pwpcal (clay sand om : ℚ) : ℚ :=
  1.528 * theta1500 clay sand om * (1 - theta1500 clay sand om)

/-- Calibrated field capacity stored as swc.fc (line 187). -/
def fccal (clay sand om : ℚ) : ℚ :=
  1.605 * theta33 clay sand om * (1 - theta33 clay sand om)

/-- Calibrated saturation point stored as swc.sat (line 188). -/
def satcal (clay sand om : ℚ) : ℚ :=
  2.225 * theta0 clay sand om * (1 - theta0 clay sand om)

/-! ## Negative water content codes, soilwater.py lines 193-209. -/

/-- Interpretation of a negative input volumetric water content as an
interpolation code between sat, fc and pwp (initialize_layer step 4).
The Python code first negates the input and then branches on the ranges
1 to 2, 2 to 3, and anything else. -/
def initVwcNeg (sat fc pwp vwcIn : ℚ) : ℚ :=
  let v := -vwcIn
  if 1 ≤ v ∧ v ≤ 2 then sat - (v - 1) * (sat - fc)
  else if 2 < v ∧ v ≤ 3 then fc - (v - 2) * (fc - pwp)
  else fc

/-! ## Rooting depth update, soilwater.py lines 331-336 and 517.

In the source the cumulative thickness accthick of a layer is its own
thickness plus the accthick of the layer above (line 150), so the
accthick of the last layer is the fold below over the thickness list. -/

/-- Cumulative thickness of the last layer, built exactly as the chained
accthick assignments of initialize_layer do. -/
def lastAccthick (thicks : List ℚ) : ℚ :=
  thicks.foldl (fun acc t => t + acc) 0

/-- Daily rooting depth update of SoilWater, method named with a leading
underscore in the source (lines 331-336): growth of 0.008 m per day,
limited by the accthick of the last soil layer. -/
def rootingDepth (rootdepth : ℚ) (thicks : List ℚ) : ℚ :=
  min (rootdepth + 0.008) (lastAccthick thicks)

/-! ## Construction of the layer list, soilwater.py lines 275-303.

The constructor reads numlayers and then runs a loop over
range(numlayers) that indexes into the supplied layer array; the only
way it can fail is the index access (an IndexError when the declared
count exceeds the array length).  No field of the payload is validated.
The numeric head and conductivity initialization that follows is
modelled separately over the reals below and raises no configuration
error either. -/

/-- One record of the layers array of the initialization payload. -/
structure LayerIn where
  thick : ℚ
  vwc : ℚ
  clay : ℚ
  sand : ℚ
  om : ℚ
deriving Repr, DecidableEq

/-- The per layer fields that the constructor loop assigns
(lines 290-296): thickness, volumetric water content, water content in
mm, and the texture, with wc = vwc * thick * 1000. -/
structure LayerQ where
  thick : ℚ
  vwc : ℚ
  wc : ℚ
  clay : ℚ
  sand : ℚ
  om : ℚ
deriving Repr, DecidableEq

/-- Assignment done by one iteration of the constructor loop. -/
def readLayer (li : LayerIn) : LayerQ :=
  ⟨li.thick, li.vwc, li.vwc * li.thick * 1000, li.clay, li.sand, li.om⟩

/-- The constructor loop: for i in range(n) access layers[i]; the none
result models the uncaught IndexError of the source when an index is
out of range.  The counter i is the current index. -/
def buildLayersGo (layers : List LayerIn) : ℕ → ℕ → Option (List LayerQ)
  | _, 0 => some []
  | i, n + 1 =>
    match layers.get? i with
    | none => none
    | some li => (buildLayersGo layers (i + 1) n).map (fun rest => readLayer li :: rest)

/-- Model of SoilWater construction (lines 285-296): build the declared
number of layer records from the payload array. -/
def buildLayers (numlayers : ℕ) (layers : List LayerIn) : Option (List LayerQ) :=
  buildLayersGo layers 0 numlayers

/-! ## Real valued layer state, soilwater.py SoilLayer and SoilWater.

The head and conductivity update and the flux solver use logarithms,
exponentials and real powers, so they are embedded over the reals. -/

/-- Soil water characteristics record SWC of the source (line 22). -/
structure SWCr where
  sat : ℝ
  fc : ℝ
  pwp : ℝ
  psd : ℝ
  porosity : ℝ
  airentry : ℝ
deriving Inhabited

/-- Mutable state of one SoilLayer that the flux computation touches. -/
structure LayerR where
  thick : ℝ
  vwc : ℝ
  wc : ℝ
  accthick : ℝ
  depth : ℝ
  ksat : ℝ
  k : ℝ
  matric : ℝ
  gravity : ℝ
  swc : SWCr
deriving Inhabited

/-- Matric suction hm before flooring, as computed by the two branches of
update_heads_k (lines 222-232), in m. -/
noncomputable def matricRaw (l : LayerR) : ℝ :=
  if l.swc.fc ≤ l.vwc then
    (33 - (33 - l.swc.airentry) * (l.vwc - l.swc.fc) / (l.swc.sat - l.swc.fc)) / 10
  else
    (Real.exp (3.496508 + (1 / l.swc.psd) * Real.log l.swc.fc)
        * max 0.05 l.vwc ^ (-(1 / l.swc.psd))) / 10

/-- Matric head stored by update_heads_k (line 234): the raw suction
floored at zero. -/
noncomputable def matricOf (l : LayerR) : ℝ :=
  max 0 (matricRaw l)

/-- Unsaturated hydraulic conductivity stored by update_heads_k
(lines 238-245); it reads the just stored matric head. -/
noncomputable def kOf (l : LayerR) : ℝ :=
  if l.swc.airentry / 10 < matricOf l then
    l.ksat * (l.vwc / l.swc.sat) ^ ((3 : ℝ) + 2 / l.swc.psd)
  else
    l.ksat

/-- The update_heads_k method (lines 216-245): writes matric, gravity
and k from the current vwc, the static characteristics, depth and ksat;
every other field is untouched. -/
noncomputable def update_heads_k (l : LayerR) : LayerR :=
  { l with matric := matricOf l, gravity := l.depth, k := kOf l }

/-- Total head property tothead (lines 247-250). -/
def tothead (l : LayerR) : ℝ :=
  l.matric + l.gravity

/-- Influx of water from the water table, method of SoilWater at
lines 391-399.  The first division has no guard: its denominator is the
difference of the logarithms of ksat and k of the last layer. -/
noncomputable def influx_from_watertable (last : LayerR) : ℝ :=
  let k := (last.ksat - last.k) / (Real.log last.ksat - Real.log last.k)
  let hm := (33 - (33 - last.swc.airentry)) / 10
  let hg := last.accthick
  k * ((hm + hg) - tothead last) / (last.thick * 0.5)

/-! ## Pass 2 of the flux solver, soilwater.py lines 456-501.

Pass 1 (lines 420-454) stores an influx for every layer; pass 2 walks
the layers top to bottom, takes the outflux of a layer from the stored
influx of the next one (or from the bottom boundary for the last
layer), corrects the outflux against the dry and saturation bounds,
overwrites the stored influx of the next layer with the corrected
outflux, and updates the water content of the current layer with the
net flux divided by the number of sub intervals.  The embedding takes
the list of pairs of post pass 1 layer states and stored pass 1
influxes, and returns one record per layer. -/

/-- Result record for one layer of pass 2: the final recorded influx,
the outflux before bound correction, the corrected outflux, the net
flux, and the updated layer state. -/
structure FluxRec where
  influx : ℝ
  rawOutflux : ℝ
  outflux : ℝ
  netflux : ℝ
  layer : LayerR
deriving Inhabited

/-- Body of one pass 2 iteration (lines 461-496) for a layer with the
given incoming influx and uncorrected outflux: bound correction of the
outflux, net flux, and the clipped water content update. -/
noncomputable def stepLayer (nint influx rawOutflux : ℝ) (cur : LayerR) : FluxRec :=
  let wc := cur.vwc * cur.thick
  let nextwc := influx + wc - rawOutflux
  let drylmt := cur.thick * 0.005
  let satlmt := cur.thick * cur.swc.sat
  let outflux :=
    if nextwc < drylmt then influx + wc - drylmt
    else if satlmt < nextwc then influx + wc - satlmt
    else rawOutflux
  let netflux := influx - outflux
  let wc2 := wc + netflux / nint
  let vwc2 := max 0.005 (min cur.swc.sat (wc2 / cur.thick))
  ⟨influx, rawOutflux, outflux, netflux,
    { cur with vwc := vwc2, wc := vwc2 * cur.thick * 1000 }⟩

/-- Pass 2 over the remaining layers: cur is the current layer, influx
the value stored for it (already overwritten by the layer above when
there is one), and the list holds the deeper layers with their stored
pass 1 influxes.  For a non last layer the uncorrected outflux is the
stored influx of the next layer, and the corrected outflux is passed
down as the influx of the next layer (line 484); for the last layer the
uncorrected outflux is the gravity drainage k, or the water table term
when a water table is present (lines 463-471). -/
noncomputable def pass2Go (hasWT : Bool) (nint influx : ℝ) (cur : LayerR) :
    List (LayerR × ℝ) → List FluxRec
  | [] =>
    let raw := if hasWT then influx_from_watertable cur else cur.k
    [stepLayer nint influx raw cur]
  | (nxt, nxtInflux) :: tl =>
    let r := stepLayer nint influx nxtInflux cur
    r :: pass2Go hasWT nint r.outflux nxt tl

/-- Pass 2 of one sub interval of the flux computation over the whole
layer list. -/
noncomputable def pass2 (hasWT : Bool) (nint : ℝ) :
    List (LayerR × ℝ) → List FluxRec
  | [] => []
  | (cur, influx) :: tl => pass2Go hasWT nint influx cur tl

/-! ## Transpiration distribution of pass 1, soilwater.py lines 431-435. -/

/-- Root density weighting curve psi of the source (line 433). -/
def psiRoot (c : ℝ) : ℝ :=
  1.8 * c - 0.8 * c ^ 2

/-- Per layer transpiration shares of pass 1: for each cumulative
thickness a in the list, cj = min(1, a / rootdepth), and the share is
aetcrop * (psi cj - previous psi) / 1000, with the accumulator prvpsi
starting at 0 at the surface (line 421). -/
noncomputable def transShares (aetcrop rootdepth : ℝ) : List ℝ → ℝ → List ℝ
  | [], _ => []
  | a :: rest, prvpsi =>
    let cj := min 1 (a / rootdepth)
    let curpsi := psiRoot cj
    aetcrop * (curpsi - prvpsi) / 1000 :: transShares aetcrop rootdepth rest curpsi

/-- The psi value left in the accumulator after walking the list. -/
noncomputable def finalPsi (rootdepth : ℝ) : List ℝ → ℝ → ℝ
  | [], prvpsi => prvpsi
  | a :: rest, _ => finalPsi rootdepth rest (psiRoot (min 1 (a / rootdepth)))

/-! ## Concrete layer states used in witnesses and counterexamples. -/

/-- A saturated bottom layer bordering the water table: vwc equals sat,
so the matric head equals the air entry head and update_heads_k stores
k = ksat. -/
def wtLayer : LayerR :=
  ⟨1, 0.4, 400, 1, 0.5, 1, 0.3, 0, 0, ⟨0.4, 0.3, 0.2, 0.5, 0.4, 2⟩⟩

/-- A small demo layer used for witnesses. -/
def demoLayer : LayerR :=
  ⟨1, 0.2, 200, 1, 0.5, 2, 0.05, 0, 0, ⟨0.45, 0.3, 0.2, 0.5, 0.45, 2⟩⟩

/-- A second demo layer, below the first. -/
def demoLayer2 : LayerR :=
  ⟨1, 0.25, 250, 2, 1.5, 2, 0.05, 0, 0, ⟨0.45, 0.3, 0.2, 0.5, 0.45, 2⟩⟩

end PyWaterBal

namespace PyWaterBal

/-! ## Helper lemmas. -/

/-- Folding the accthick chain from any start adds the list sum. -/
theorem foldl_accthick (l : List ℚ) : ∀ x : ℚ, l.foldl (fun acc t => t + acc) x = x + l.sum := by
  induction l with
  | nil => intro x; simp
  | cons a l ih => intro x; simp only [List.foldl_cons, List.sum_cons]; rw [ih]; ring

/-- The accthick of the last layer is the total profile thickness. -/
theorem lastAccthick_eq_sum (thicks : List ℚ) : lastAccthick thicks = thicks.sum := by
  unfold lastAccthick; rw [foldl_accthick]; ring

/-- The constructor loop succeeds exactly when every index it touches is
inside the payload array. -/
theorem buildLayersGo_isSome (ls : List LayerIn) :
    ∀ (n i : ℕ), (buildLayersGo ls i n).isSome ↔ (n = 0 ∨ i + n ≤ ls.length) := by
  intro n
  induction n with
  | zero => intro i; simp [buildLayersGo]
  | succ n ih =>
    intro i
    unfold buildLayersGo
    cases h : ls.get? i with
    | none =>
      have hlen : ls.length ≤ i := List.get?_eq_none.mp h
      simp only [Option.isSome_none, Bool.false_eq_true, false_iff]
      push_neg
      exact ⟨Nat.succ_ne_zero n, by omega⟩
    | some li =>
      have hlen : i < ls.length := by
        by_contra hc
        push_neg at hc
        rw [List.get?_eq_none.mpr hc] at h
        exact Option.noConfusion h
      have hmap : (Option.map (fun rest => readLayer li :: rest)
          (buildLayersGo ls (i + 1) n)).isSome = (buildLayersGo ls (i + 1) n).isSome := by
        cases buildLayersGo ls (i + 1) n <;> rfl
      rw [hmap, ih (i + 1)]
      omega

/-! ## Claim C2: construction validation. -/

/-- Claim C2 counterexample: a payload whose single layer has thickness
zero, with a matching declared layer count, is accepted: construction
produces an instance instead of failing with a configuration error.  In
the source no field of the payload is validated, so the claimed
rejection of non positive thicknesses does not exist. -/
theorem buildLayers_zero_thickness_succeeds :
    (buildLayers 1 [⟨0, 0.3, 30, 40, 2⟩]).isSome = true := by
  rfl

/-- Claim C2, amended: model construction performs no validation of the
payload; it fails (with an uncaught index error, not a configuration
error) exactly when the declared layer count exceeds the length of the
supplied layer array.  In particular a non positive thickness is
accepted silently, and a declared count smaller than the array length
silently ignores the extra records. -/
theorem buildLayers_isSome_iff (n : ℕ) (ls : List LayerIn) :
    (buildLayers n ls).isSome ↔ n ≤ ls.length := by
  unfold buildLayers
  rw [buildLayersGo_isSome ls n 0]
  omega

/-! ## Claim C6: negative water content codes. -/

/-- Claim C6: a negative input vwc is an interpolation code: minus one
gives saturation, minus two field capacity, minus three wilting point;
inputs between minus two and minus one interpolate linearly between
saturation and field capacity, inputs in the half open range from minus
three (excluded) to minus two interpolate between field capacity and
wilting point, and any other negative input gives field capacity. -/
theorem initVwcNeg_codes (sat fc pwp v : ℚ) :
    (v = -1 → initVwcNeg sat fc pwp v = sat)
    ∧ (v = -2 → initVwcNeg sat fc pwp v = fc)
    ∧ (v = -3 → initVwcNeg sat fc pwp v = pwp)
    ∧ (-2 ≤ v → v ≤ -1 → initVwcNeg sat fc pwp v = sat - (-v - 1) * (sat - fc))
    ∧ (-3 < v → v ≤ -2 → initVwcNeg sat fc pwp v = fc - (-v - 2) * (fc - pwp))
    ∧ (v < -3 → initVwcNeg sat fc pwp v = fc)
    ∧ (-1 < v → v < 0 → initVwcNeg sat fc pwp v = fc) := by
  unfold initVwcNeg
  refine ⟨?_, ?_, ?_, ?_, ?_, ?_, ?_⟩
  · intro h
    subst h
    rw [if_pos (by norm_num)]
    ring
  · intro h
    subst h
    rw [if_pos (by norm_num)]
    ring
  · intro h
    subst h
    rw [if_neg (by norm_num), if_pos (by norm_num)]
    ring
  · intro h1 h2
    rw [if_pos ⟨by linarith, by linarith⟩]
  · intro h1 h2
    rcases eq_or_lt_of_le h2 with he | hlt
    · subst he
      rw [if_pos (by norm_num)]
      ring
    · rw [if_neg (by intro hc; linarith [hc.2]), if_pos ⟨by linarith, by linarith⟩]
  · intro h
    rw [if_neg (by intro hc; linarith [hc.2]), if_neg (by intro hc; linarith [hc.2])]
  · intro h1 h2
    rw [if_neg (by intro hc; linarith [hc.1]), if_neg (by intro hc; linarith [hc.1])]

/-- Claim C6 witness: input minus 1.5 on a layer with saturation 0.45
and field capacity 0.30 initializes the water content to 0.375. -/
theorem initVwcNeg_codes_witness :
    initVwcNeg 0.45 0.3 0.2 (-1.5) = 0.375 := by
  have h := (initVwcNeg_codes 0.45 0.3 0.2 (-1.5)).2.2.2.1 (by norm_num) (by norm_num)
  rw [h]
  norm_num

/-! ## Claim C8: daily rooting depth update. -/

/-- Claim C8 counterexample: when the configured root depth exceeds the
total profile depth, the daily update decreases it, so the root depth is
not nondecreasing across days: with root depth 2 m over a single 1 m
layer the updated depth is 1 m. -/
theorem rooting_depth_can_decrease :
    rootingDepth 2 [1] < 2 := by
  have h : lastAccthick [1] = 1 := by norm_num [lastAccthick]
  rw [rootingDepth, h]
  norm_num

/-- Claim C8, amended: the daily update sets the new root depth to
min(old + 0.008, total profile thickness); it is nondecreasing whenever
the current depth does not exceed the profile depth (hence from the
first daily step onward), and once at the cap it stays there.  An
initial configured depth above the profile depth is cut back to the cap
on the first step, which is a decrease. -/
theorem rooting_depth_spec (rd : ℚ) (thicks : List ℚ) :
    rootingDepth rd thicks = min (rd + 0.008) thicks.sum
    ∧ (rd ≤ thicks.sum → rd ≤ rootingDepth rd thicks)
    ∧ (rd = thicks.sum → rootingDepth rd thicks = rd) := by
  have h : lastAccthick thicks = thicks.sum := lastAccthick_eq_sum thicks
  refine ⟨by rw [rootingDepth, h], ?_, ?_⟩
  · intro hle
    rw [rootingDepth, h]
    exact le_min (by linarith) hle
  · intro he
    rw [rootingDepth, h, ← he]
    exact min_eq_right (by linarith)

/-- Claim C8 witness: with root depth 1 m over a 2 m profile the update
formula, monotonicity and the cap behaviour hold concretely. -/
theorem rooting_depth_spec_witness :
    rootingDepth 1 [2] = min (1 + 0.008) 2 ∧ (1 : ℚ) ≤ rootingDepth 1 [2] := by
  have h := rooting_depth_spec 1 [2]
  exact ⟨by simpa using h.1, h.2.1 (by norm_num)⟩

/-! ## Claim C9: idempotence of the head and conductivity update. -/

/-- Claim C9: update_heads_k reads only vwc, the static soil water
characteristics, depth and ksat, writes only matric, gravity and k, and
is idempotent: a second call with unchanged vwc returns the same matric
head, gravity head and conductivity as the first. -/
theorem update_heads_k_idempotent (l : LayerR) :
    update_heads_k (update_heads_k l) = update_heads_k l
    ∧ (update_heads_k l).vwc = l.vwc
    ∧ (update_heads_k l).swc = l.swc
    ∧ (update_heads_k l).depth = l.depth
    ∧ (update_heads_k l).ksat = l.ksat
    ∧ (update_heads_k l).thick = l.thick
    ∧ (update_heads_k l).wc = l.wc
    ∧ (update_heads_k l).accthick = l.accthick := by
  exact ⟨rfl, rfl, rfl, rfl, rfl, rfl, rfl, rfl⟩

/-! ## Claim C10: positivity of the unsaturated conductivity. -/

/-- Claim C10: for a layer with positive ksat, positive saturation and
positive pore size distribution index, and vwc at least the dry floor
0.005, the conductivity stored by update_heads_k is strictly positive,
so the logarithms taken of k in the Darcy log mean are well defined. -/
theorem update_heads_k_k_pos (l : LayerR) (hksat : 0 < l.ksat)
    (hsat : 0 < l.swc.sat) (hpsd : 0 < l.swc.psd) (hvwc : 0.005 ≤ l.vwc) :
    0 < (update_heads_k l).k := by
  have hk : (update_heads_k l).k = kOf l := rfl
  rw [hk]
  unfold kOf
  split
  · refine mul_pos hksat (Real.rpow_pos_of_pos ?_ _)
    exact div_pos (lt_of_lt_of_le (by norm_num) hvwc) hsat
  · exact hksat

/-- Claim C10 witness at a concrete layer. -/
theorem update_heads_k_k_pos_witness :
    0 < (update_heads_k demoLayer).k :=
  update_heads_k_k_pos demoLayer (by norm_num [demoLayer]) (by norm_num [demoLayer])
    (by norm_num [demoLayer]) (by norm_num [demoLayer])

/-! ## Claim C3: the water table influx divides by a zero denominator on
a reachable state. -/

/-- Claim C3 is refuted by the code: on the reachable state in which the
last layer is saturated (vwc = sat, which the clipping policy produces
exactly), update_heads_k stores k = ksat, and the first division of
influx_from_watertable then has the denominator log ksat minus log k
equal to zero with no guard, so the Python code raises a
ZeroDivisionError.  The analogous Darcy log mean at line 442 is guarded;
this one is not. -/
theorem watertable_logmean_denominator_zero :
    (update_heads_k wtLayer).k = wtLayer.ksat
    ∧ Real.log ((update_heads_k wtLayer).ksat)
        - Real.log ((update_heads_k wtLayer).k) = 0 := by
  have hraw : matricRaw wtLayer = 0.2 := by
    unfold matricRaw wtLayer
    rw [if_pos (by norm_num)]
    norm_num
  have hmat : matricOf wtLayer = 0.2 := by
    unfold matricOf
    rw [hraw]
    norm_num
  have hk : kOf wtLayer = wtLayer.ksat := by
    unfold kOf
    rw [hmat, if_neg (by norm_num [wtLayer])]
  have h1 : (update_heads_k wtLayer).k = kOf wtLayer := rfl
  have h2 : (update_heads_k wtLayer).ksat = wtLayer.ksat := rfl
  refine ⟨by rw [h1, hk], ?_⟩
  rw [h1, h2, hk]
  exact sub_self _

/-! ## Claim C4: the transpiration shares sum to at most the demand. -/

/-- The shares telescope: their sum is the demand times the difference
of the final and initial accumulator values of the weighting curve. -/
theorem transShares_sum (aetcrop rootdepth : ℝ) (l : List ℝ) :
    ∀ p : ℝ, (transShares aetcrop rootdepth l p).sum
      = aetcrop * (finalPsi rootdepth l p - p) / 1000 := by
  induction l with
  | nil => intro p; simp [transShares, finalPsi]
  | cons a l ih =>
    intro p
    simp only [transShares, finalPsi, List.sum_cons]
    rw [ih]
    ring

/-- The weighting curve psi stays at or below one left of one. -/
theorem psiRoot_le_one (c : ℝ) (hc : c ≤ 1) : psiRoot c ≤ 1 := by
  unfold psiRoot
  nlinarith [mul_nonneg (sub_nonneg.mpr hc) (by linarith : (0 : ℝ) ≤ 1.25 - c)]

/-- The accumulator after the walk stays at or below one. -/
theorem finalPsi_le_one (rootdepth : ℝ) (l : List ℝ) :
    ∀ p : ℝ, p ≤ 1 → finalPsi rootdepth l p ≤ 1 := by
  induction l with
  | nil => intro p hp; exact hp
  | cons a l ih =>
    intro p _
    exact ih _ (psiRoot_le_one _ (min_le_left _ _))

/-- Claim C4: in one sub interval with positive root depth and a non
negative actual transpiration demand, the per layer transpiration
shares over any list of cumulative thicknesses sum to at most the total
demand divided by 1000 (the conversion from mm to m). -/
theorem transShares_sum_le (aetcrop rootdepth : ℝ) (accthicks : List ℝ)
    (hroot : 0 < rootdepth) (haet : 0 ≤ aetcrop) :
    (transShares aetcrop rootdepth accthicks 0).sum ≤ aetcrop / 1000 := by
  rw [transShares_sum]
  have h1 : finalPsi rootdepth accthicks 0 ≤ 1 :=
    finalPsi_le_one rootdepth accthicks 0 (by norm_num)
  have h2 := mul_nonneg haet (sub_nonneg.mpr h1)
  linarith

/-- Claim C4 witness with a demand of 3 mm per day over two layers. -/
theorem transShares_sum_le_witness :
    (transShares 3 1 [0.5, 1] 0).sum ≤ 3 / 1000 :=
  transShares_sum_le 3 1 [0.5, 1] (by norm_num) (by norm_num)

/-! ## Pass 2 infrastructure for claims C1 and C7. -/

/-- The updated water content of one pass 2 step is clipped into the
dry floor and the saturation point of the layer. -/
theorem stepLayer_vwc_bounds (nint influx raw : ℝ) (cur : LayerR)
    (hsat : 0.005 ≤ cur.swc.sat) :
    0.005 ≤ (stepLayer nint influx raw cur).layer.vwc
    ∧ (stepLayer nint influx raw cur).layer.vwc
        ≤ (stepLayer nint influx raw cur).layer.swc.sat := by
  unfold stepLayer
  exact ⟨le_max_left _ _, max_le hsat (min_le_left _ _)⟩

/-- Clipping bounds for every record produced by the pass 2 walk. -/
theorem pass2Go_vwc_bounds (hasWT : Bool) (nint : ℝ) :
    ∀ (rest : List (LayerR × ℝ)) (influx : ℝ) (cur : LayerR),
      0.005 ≤ cur.swc.sat → (∀ p ∈ rest, 0.005 ≤ p.1.swc.sat) →
      ∀ r ∈ pass2Go hasWT nint influx cur rest,
        0.005 ≤ r.layer.vwc ∧ r.layer.vwc ≤ r.layer.swc.sat := by
  intro rest
  induction rest with
  | nil =>
    intro influx cur hcur _ r hr
    simp only [pass2Go, List.mem_singleton] at hr
    subst hr
    exact stepLayer_vwc_bounds _ _ _ _ hcur
  | cons p tl ih =>
    obtain ⟨nxt, nf⟩ := p
    intro influx cur hcur hrest r hr
    simp only [pass2Go, List.mem_cons] at hr
    rcases hr with hr | hr
    · subst hr
      exact stepLayer_vwc_bounds _ _ _ _ hcur
    · exact ih _ nxt (hrest (nxt, nf) (List.mem_cons_self _ _))
        (fun q hq => hrest q (List.mem_cons_of_mem _ hq)) r hr

/-- The influx recorded in the first record of a pass 2 walk is the
influx handed to it. -/
theorem pass2Go_getD0_influx (hasWT : Bool) (nint : ℝ)
    (rest : List (LayerR × ℝ)) (influx : ℝ) (cur : LayerR) (d : FluxRec) :
    ((pass2Go hasWT nint influx cur rest).getD 0 d).influx = influx := by
  cases rest with
  | nil => rfl
  | cons p tl => obtain ⟨a, b⟩ := p; rfl

/-- Adjacent records of a pass 2 walk agree: the outflux of a record is
the influx of the next one. -/
theorem pass2Go_continuity (hasWT : Bool) (nint : ℝ) :
    ∀ (rest : List (LayerR × ℝ)) (influx : ℝ) (cur : LayerR) (i : ℕ),
      i + 1 < (pass2Go hasWT nint influx cur rest).length →
      ((pass2Go hasWT nint influx cur rest).getD i default).outflux
        = ((pass2Go hasWT nint influx cur rest).getD (i + 1) default).influx := by
  intro rest
  induction rest with
  | nil =>
    intro influx cur i hi
    simp only [pass2Go, List.length_singleton] at hi
    omega
  | cons p tl ih =>
    obtain ⟨nxt, nf⟩ := p
    intro influx cur i hi
    cases i with
    | zero =>
      simp only [pass2Go, List.getD_cons_zero, List.getD_cons_succ]
      rw [pass2Go_getD0_influx]
    | succ j =>
      simp only [pass2Go, List.getD_cons_succ]
      apply ih
      simp only [pass2Go, List.length_cons] at hi
      omega

/-- The raw outflux of the last record of a pass 2 walk is the bottom
boundary term of the last layer of the walk. -/
theorem pass2Go_last_raw (hasWT : Bool) (nint : ℝ) :
    ∀ (rest : List (LayerR × ℝ)) (influx : ℝ) (cur : LayerR) (d : FluxRec),
      ((pass2Go hasWT nint influx cur rest).getLastD d).rawOutflux
        = if hasWT then influx_from_watertable ((rest.map Prod.fst).getLastD cur)
          else ((rest.map Prod.fst).getLastD cur).k := by
  intro rest
  induction rest with
  | nil => intro influx cur d; rfl
  | cons p tl ih =>
    obtain ⟨nxt, nf⟩ := p
    intro influx cur d
    simp only [pass2Go, List.map_cons, List.getLastD_cons]
    exact ih _ nxt _

/-- The first component of the last pair is the last mapped first
component. -/
theorem getLastD_fst (l : List (LayerR × ℝ)) :
    ∀ p : LayerR × ℝ, (l.getLastD p).1 = (l.map Prod.fst).getLastD p.1 := by
  induction l with
  | nil => intro p; rfl
  | cons a tl ih =>
    intro p
    simp only [List.map_cons, List.getLastD_cons]
    exact ih a

/-! ## Claim C1: the clipping invariant of the state update. -/

/-- Claim C1: after one sub interval flux update, every layer whose
saturation point is at least the dry floor 0.005 carries a volumetric
water content between 0.005 and its saturation point, enforced by the
clipping of the state update. -/
theorem pass2_vwc_bounds (hasWT : Bool) (nint : ℝ) (lps : List (LayerR × ℝ))
    (hsat : ∀ p ∈ lps, 0.005 ≤ p.1.swc.sat) :
    ∀ r ∈ pass2 hasWT nint lps,
      0.005 ≤ r.layer.vwc ∧ r.layer.vwc ≤ r.layer.swc.sat := by
  cases lps with
  | nil => intro r hr; simp [pass2] at hr
  | cons p tl =>
    obtain ⟨cur, influx⟩ := p
    intro r hr
    exact pass2Go_vwc_bounds hasWT nint tl influx cur
      (hsat (cur, influx) (List.mem_cons_self _ _))
      (fun q hq => hsat q (List.mem_cons_of_mem _ hq)) r hr

/-- Claim C1 witness on a one layer profile. -/
theorem pass2_vwc_bounds_witness :
    0.005 ≤ ((pass2 false 1 [(demoLayer, 0.001)]).getD 0 default).layer.vwc
    ∧ ((pass2 false 1 [(demoLayer, 0.001)]).getD 0 default).layer.vwc
        ≤ ((pass2 false 1 [(demoLayer, 0.001)]).getD 0 default).layer.swc.sat := by
  apply pass2_vwc_bounds false 1 [(demoLayer, 0.001)]
  · intro p hp
    rw [List.mem_singleton] at hp
    subst hp
    norm_num [demoLayer]
  · show (pass2 false 1 [(demoLayer, 0.001)]).getD 0 default
      ∈ pass2 false 1 [(demoLayer, 0.001)]
    have h : pass2 false 1 [(demoLayer, 0.001)]
        = [stepLayer 1 0.001 demoLayer.k demoLayer] := rfl
    rw [h]
    simp

/-! ## Claim C7: continuity of the recorded fluxes and the bottom
boundary. -/

/-- Claim C7: after pass 2, the recorded outflux of every layer with a
next layer equals the recorded influx of that next layer, including
after any bound correction; and the raw outflux of the last layer,
before bound correction, is the conductivity k of the last layer when
there is no water table, or the water table influx term when there is
one. -/
theorem pass2_continuity_bottom (hasWT : Bool) (nint : ℝ)
    (lps : List (LayerR × ℝ)) :
    (∀ i : ℕ, i + 1 < (pass2 hasWT nint lps).length →
      ((pass2 hasWT nint lps).getD i default).outflux
        = ((pass2 hasWT nint lps).getD (i + 1) default).influx)
    ∧ (lps ≠ [] →
      ((pass2 hasWT nint lps).getLastD default).rawOutflux
        = if hasWT then influx_from_watertable (lps.getLastD default).1
          else (lps.getLastD default).1.k) := by
  cases lps with
  | nil =>
    refine ⟨?_, ?_⟩
    · intro i hi
      simp [pass2] at hi
    · intro h
      exact absurd rfl h
  | cons p tl =>
    obtain ⟨cur, influx⟩ := p
    refine ⟨?_, ?_⟩
    · intro i hi
      exact pass2Go_continuity hasWT nint tl influx cur i hi
    · intro _
      have h1 := pass2Go_last_raw hasWT nint tl influx cur default
      have h2 : (((cur, influx) :: tl).getLastD default).1
          = (tl.map Prod.fst).getLastD cur := by
        rw [List.getLastD_cons]
        exact getLastD_fst tl (cur, influx)
      show ((pass2Go hasWT nint influx cur tl).getLastD default).rawOutflux = _
      rw [h1, h2]

/-- Claim C7 witness on a two layer profile without a water table. -/
theorem pass2_continuity_bottom_witness :
    ((pass2 false 1 [(demoLayer, 0.001), (demoLayer2, 0.002)]).getD 0 default).outflux
      = ((pass2 false 1 [(demoLayer, 0.001), (demoLayer2, 0.002)]).getD 1 default).influx
    ∧ ((pass2 false 1 [(demoLayer, 0.001), (demoLayer2, 0.002)]).getLastD
        default).rawOutflux = demoLayer2.k := by
  have h := pass2_continuity_bottom false 1 [(demoLayer, 0.001), (demoLayer2, 0.002)]
  refine ⟨h.1 0 ?_, ?_⟩
  · have hlen : (pass2 false 1 [(demoLayer, 0.001), (demoLayer2, 0.002)]).length = 2 := rfl
    rw [hlen]
    norm_num
  · have h2 := h.2 (by simp)
    rw [h2]
    rfl

/-! ## Claim C5: ordering of the derived soil water characteristics.

The six lemmas below with the long hint lists are inequalities that are
affine in each of clay, sand and om separately, so they hold on the box
if they hold at its vertices; the triple products of the box constraint
slacks passed to nlinarith span the multilinear interpolation basis and
give the certificate. -/

/-- Lower bound of the raw regression value theta33t on the verified
texture box. -/
theorem theta33t_lo (clay sand om : ℚ) (hc0 : 0 ≤ clay) (hc1 : clay ≤ 50)
    (hs0 : 0 ≤ sand) (hs1 : sand ≤ 100) (ho0 : 0 ≤ om) (ho1 : om ≤ 5) :
    0.048 ≤ theta33t clay sand om := by
  unfold theta33t
  nlinarith [mul_nonneg (mul_nonneg hc0 hs0) ho0,
    mul_nonneg (mul_nonneg hc0 hs0) (sub_nonneg.mpr ho1),
    mul_nonneg (mul_nonneg hc0 (sub_nonneg.mpr hs1)) ho0,
    mul_nonneg (mul_nonneg hc0 (sub_nonneg.mpr hs1)) (sub_nonneg.mpr ho1),
    mul_nonneg (mul_nonneg (sub_nonneg.mpr hc1) hs0) ho0,
    mul_nonneg (mul_nonneg (sub_nonneg.mpr hc1) hs0) (sub_nonneg.mpr ho1),
    mul_nonneg (mul_nonneg (sub_nonneg.mpr hc1) (sub_nonneg.mpr hs1)) ho0,
    mul_nonneg (mul_nonneg (sub_nonneg.mpr hc1) (sub_nonneg.mpr hs1)) (sub_nonneg.mpr ho1)]

/-- Upper bound of theta33t on the verified texture box. -/
theorem theta33t_hi (clay sand om : ℚ) (hc0 : 0 ≤ clay) (hc1 : clay ≤ 50)
    (hs0 : 0 ≤ sand) (hs1 : sand ≤ 100) (ho0 : 0 ≤ om) (ho1 : om ≤ 5) :
    theta33t clay sand om ≤ 0.4015 := by
  unfold theta33t
  nlinarith [mul_nonneg (mul_nonneg hc0 hs0) ho0,
    mul_nonneg (mul_nonneg hc0 hs0) (sub_nonneg.mpr ho1),
    mul_nonneg (mul_nonneg hc0 (sub_nonneg.mpr hs1)) ho0,
    mul_nonneg (mul_nonneg hc0 (sub_nonneg.mpr hs1)) (sub_nonneg.mpr ho1),
    mul_nonneg (mul_nonneg (sub_nonneg.mpr hc1) hs0) ho0,
    mul_nonneg (mul_nonneg (sub_nonneg.mpr hc1) hs0) (sub_nonneg.mpr ho1),
    mul_nonneg (mul_nonneg (sub_nonneg.mpr hc1) (sub_nonneg.mpr hs1)) ho0,
    mul_nonneg (mul_nonneg (sub_nonneg.mpr hc1) (sub_nonneg.mpr hs1)) (sub_nonneg.mpr ho1)]

/-- Upper bound of theta1500t on the verified texture box. -/
theorem theta1500t_hi (clay sand om : ℚ) (hc0 : 0 ≤ clay) (hc1 : clay ≤ 50)
    (hs0 : 0 ≤ sand) (hs1 : sand ≤ 100) (ho0 : 0 ≤ om) (ho1 : om ≤ 5) :
    theta1500t clay sand om ≤ 0.3395 := by
  unfold theta1500t
  nlinarith [mul_nonneg (mul_nonneg hc0 hs0) ho0,
    mul_nonneg (mul_nonneg hc0 hs0) (sub_nonneg.mpr ho1),
    mul_nonneg (mul_nonneg hc0 (sub_nonneg.mpr hs1)) ho0,
    mul_nonneg (mul_nonneg hc0 (sub_nonneg.mpr hs1)) (sub_nonneg.mpr ho1),
    mul_nonneg (mul_nonneg (sub_nonneg.mpr hc1) hs0) ho0,
    mul_nonneg (mul_nonneg (sub_nonneg.mpr hc1) hs0) (sub_nonneg.mpr ho1),
    mul_nonneg (mul_nonneg (sub_nonneg.mpr hc1) (sub_nonneg.mpr hs1)) ho0,
    mul_nonneg (mul_nonneg (sub_nonneg.mpr hc1) (sub_nonneg.mpr hs1)) (sub_nonneg.mpr ho1)]

/-- Multilinear residual used to compare the wilting point and field
capacity branches: a tangent of the square term at 0.14 reduces the
comparison to this inequality. -/
theorem wpfcResidual (clay sand om : ℚ) (hc0 : 0 ≤ clay) (hc1 : clay ≤ 50)
    (hs0 : 0 ≤ sand) (hs1 : sand ≤ 100) (ho0 : 0 ≤ om) (ho1 : om ≤ 5) :
    1.14 * theta1500t clay sand om + 0.0201468 ≤ 0.98524 * theta33t clay sand om := by
  unfold theta1500t theta33t
  nlinarith [mul_nonneg (mul_nonneg hc0 hs0) ho0,
    mul_nonneg (mul_nonneg hc0 hs0) (sub_nonneg.mpr ho1),
    mul_nonneg (mul_nonneg hc0 (sub_nonneg.mpr hs1)) ho0,
    mul_nonneg (mul_nonneg hc0 (sub_nonneg.mpr hs1)) (sub_nonneg.mpr ho1),
    mul_nonneg (mul_nonneg (sub_nonneg.mpr hc1) hs0) ho0,
    mul_nonneg (mul_nonneg (sub_nonneg.mpr hc1) hs0) (sub_nonneg.mpr ho1),
    mul_nonneg (mul_nonneg (sub_nonneg.mpr hc1) (sub_nonneg.mpr hs1)) ho0,
    mul_nonneg (mul_nonneg (sub_nonneg.mpr hc1) (sub_nonneg.mpr hs1)) (sub_nonneg.mpr ho1)]

/-- Multilinear residual for the lower bound of theta0: a tangent of
the square term at 0.3 reduces the bound to this inequality. -/
theorem sat_loResidual (clay sand om : ℚ) (hc0 : 0 ≤ clay) (hc1 : clay ≤ 50)
    (hs0 : 0 ≤ sand) (hs1 : sand ≤ 100) (ho0 : 0 ≤ om) (ho1 : om ≤ 5) :
    0.37047 ≤ 1.3958 * theta33t clay sand om
      + (theta_s33 clay sand om - 0.097 * (sand / 100) + 0.043) := by
  unfold theta33t theta_s33 theta_s33t
  nlinarith [mul_nonneg (mul_nonneg hc0 hs0) ho0,
    mul_nonneg (mul_nonneg hc0 hs0) (sub_nonneg.mpr ho1),
    mul_nonneg (mul_nonneg hc0 (sub_nonneg.mpr hs1)) ho0,
    mul_nonneg (mul_nonneg hc0 (sub_nonneg.mpr hs1)) (sub_nonneg.mpr ho1),
    mul_nonneg (mul_nonneg (sub_nonneg.mpr hc1) hs0) ho0,
    mul_nonneg (mul_nonneg (sub_nonneg.mpr hc1) hs0) (sub_nonneg.mpr ho1),
    mul_nonneg (mul_nonneg (sub_nonneg.mpr hc1) (sub_nonneg.mpr hs1)) ho0,
    mul_nonneg (mul_nonneg (sub_nonneg.mpr hc1) (sub_nonneg.mpr hs1)) (sub_nonneg.mpr ho1)]

/-- Multilinear residual for the upper bound of theta0: a secant of the
square term over the theta33t range reduces the bound to this
inequality. -/
theorem sat_hiResidual (clay sand om : ℚ) (hc0 : 0 ≤ clay) (hc1 : clay ≤ 50)
    (hs0 : 0 ≤ sand) (hs1 : sand ≤ 100) (ho0 : 0 ≤ om) (ho1 : om ≤ 5) :
    1.2027085 * theta33t clay sand om
      + (theta_s33 clay sand om - 0.097 * (sand / 100) + 0.043) ≤ 0.799725976 := by
  unfold theta33t theta_s33 theta_s33t
  nlinarith [mul_nonneg (mul_nonneg hc0 hs0) ho0,
    mul_nonneg (mul_nonneg hc0 hs0) (sub_nonneg.mpr ho1),
    mul_nonneg (mul_nonneg hc0 (sub_nonneg.mpr hs1)) ho0,
    mul_nonneg (mul_nonneg hc0 (sub_nonneg.mpr hs1)) (sub_nonneg.mpr ho1),
    mul_nonneg (mul_nonneg (sub_nonneg.mpr hc1) hs0) ho0,
    mul_nonneg (mul_nonneg (sub_nonneg.mpr hc1) hs0) (sub_nonneg.mpr ho1),
    mul_nonneg (mul_nonneg (sub_nonneg.mpr hc1) (sub_nonneg.mpr hs1)) ho0,
    mul_nonneg (mul_nonneg (sub_nonneg.mpr hc1) (sub_nonneg.mpr hs1)) (sub_nonneg.mpr ho1)]

/-- The corrected field capacity estimate is nonnegative on the box. -/
theorem t33_lo (clay sand om : ℚ) (hTlo : 0.048 ≤ theta33t clay sand om) :
    0 ≤ theta33 clay sand om := by
  unfold theta33
  nlinarith [sq_nonneg (theta33t clay sand om)]

/-- The corrected field capacity estimate is at most 0.45 on the box. -/
theorem t33_hi (clay sand om : ℚ) (hTlo : 0.048 ≤ theta33t clay sand om)
    (hThi : theta33t clay sand om ≤ 0.4015) : theta33 clay sand om ≤ 0.45 := by
  unfold theta33
  nlinarith [mul_nonneg (sub_nonneg.mpr hTlo) (sub_nonneg.mpr hThi)]

/-- The corrected wilting point estimate is at most 0.37 on the box. -/
theorem t1500_hi (clay sand om : ℚ) (hUhi : theta1500t clay sand om ≤ 0.3395) :
    theta1500 clay sand om ≤ 0.37 := by
  unfold theta1500
  linarith

/-- The corrected wilting point estimate is at most the corrected field
capacity estimate on the box. -/
theorem t1500_le_t33 (clay sand om : ℚ)
    (hR1 : 1.14 * theta1500t clay sand om + 0.0201468 ≤ 0.98524 * theta33t clay sand om) :
    theta1500 clay sand om ≤ theta33 clay sand om := by
  unfold theta1500 theta33
  nlinarith [sq_nonneg (theta33t clay sand om - 0.14)]

/-- The saturation estimate is at least 0.24 on the box. -/
theorem t0_lo (clay sand om : ℚ)
    (hR2 : 0.37047 ≤ 1.3958 * theta33t clay sand om
      + (theta_s33 clay sand om - 0.097 * (sand / 100) + 0.043)) :
    0.24 ≤ theta0 clay sand om := by
  unfold theta0 theta33
  nlinarith [sq_nonneg (theta33t clay sand om - 0.3)]

/-- The saturation estimate is at most 0.76 on the box. -/
theorem t0_hi (clay sand om : ℚ) (hTlo : 0.048 ≤ theta33t clay sand om)
    (hThi : theta33t clay sand om ≤ 0.4015)
    (hR3 : 1.2027085 * theta33t clay sand om
      + (theta_s33 clay sand om - 0.097 * (sand / 100) + 0.043) ≤ 0.799725976) :
    theta0 clay sand om ≤ 0.76 := by
  unfold theta0 theta33
  nlinarith [mul_nonneg (sub_nonneg.mpr hTlo) (sub_nonneg.mpr hThi)]

/-- Ordering of the first two calibration maps: the map with factor
1.528 applied to a stays below the map with factor 1.605 applied to b
when a is at most b, a is at most 0.37 and b lies in the unit range up
to 0.45. -/
theorem calOrder1 (a b : ℚ) (ha : a ≤ 0.37) (hb0 : 0 ≤ b) (hb1 : b ≤ 0.45)
    (hab : a ≤ b) : 1.528 * a * (1 - a) ≤ 1.605 * b * (1 - b) := by
  rcases le_or_lt a 0 with h0 | h0
  · nlinarith [mul_nonneg hb0 (by linarith : (0 : ℚ) ≤ 1 - b),
      mul_nonneg (neg_nonneg.mpr h0) (by linarith : (0 : ℚ) ≤ 1 - a)]
  · nlinarith [mul_nonneg (sub_nonneg.mpr hab) (by linarith : (0 : ℚ) ≤ 1 - a - b),
      mul_nonneg (le_of_lt h0) (by linarith : (0 : ℚ) ≤ 1 - a)]

/-- Ordering of the last two calibration maps: the map with factor
1.605 on the range up to 0.45 stays below the map with factor 2.225 on
the range 0.24 to 0.76. -/
theorem calOrder2 (b c : ℚ) (hb0 : 0 ≤ b) (hb1 : b ≤ 0.45) (hc0 : 0.24 ≤ c)
    (hc1 : c ≤ 0.76) : 1.605 * b * (1 - b) ≤ 2.225 * c * (1 - c) := by
  nlinarith [mul_nonneg (sub_nonneg.mpr hb1) (by linarith : (0 : ℚ) ≤ 0.55 - b),
    mul_nonneg (sub_nonneg.mpr hc0) (sub_nonneg.mpr hc1)]

/-- Claim C5 counterexample: at the texture clay 0, sand 0, om 100,
which lies inside the claimed domain of all percentages in 0 to 100,
the derived characteristics are out of order: the calibrated field
capacity is strictly below the calibrated wilting point (the regression
and its quadratic calibration maps leave the fitted range). -/
theorem swc_order_fails_at_om100 : fccal 0 0 100 < pwpcal 0 0 100 := by
  norm_num [fccal, pwpcal, theta33, theta1500, theta33t, theta1500t]

/-- Claim C5, amended: the ordering wilting point at most field
capacity at most saturation of the derived characteristics holds for
every texture with clay in 0 to 50 percent, sand in 0 to 100 percent
and organic matter in 0 to 5 percent; it fails on the full claimed box
om up to 100 (see the counterexample), and the verified box is the
range this proof certifies, not the exact failure boundary. -/
theorem swc_order_on_domain (clay sand om : ℚ) (hc0 : 0 ≤ clay) (hc1 : clay ≤ 50)
    (hs0 : 0 ≤ sand) (hs1 : sand ≤ 100) (ho0 : 0 ≤ om) (ho1 : om ≤ 5) :
    pwpcal clay sand om ≤ fccal clay sand om
    ∧ fccal clay sand om ≤ satcal clay sand om := by
  have hTlo := theta33t_lo clay sand om hc0 hc1 hs0 hs1 ho0 ho1
  have hThi := theta33t_hi clay sand om hc0 hc1 hs0 hs1 ho0 ho1
  have hUhi := theta1500t_hi clay sand om hc0 hc1 hs0 hs1 ho0 ho1
  have hR1 := wpfcResidual clay sand om hc0 hc1 hs0 hs1 ho0 ho1
  have hR2 := sat_loResidual clay sand om hc0 hc1 hs0 hs1 ho0 ho1
  have hR3 := sat_hiResidual clay sand om hc0 hc1 hs0 hs1 ho0 ho1
  have hA := t1500_hi clay sand om hUhi
  have hB0 := t33_lo clay sand om hTlo
  have hB1 := t33_hi clay sand om hTlo hThi
  have hAB := t1500_le_t33 clay sand om hR1
  have hC0 := t0_lo clay sand om hR2
  have hC1 := t0_hi clay sand om hTlo hThi hR3
  unfold pwpcal fccal satcal
  exact ⟨calOrder1 _ _ hA hB0 hB1 hAB, calOrder2 _ _ hB0 hB1 hC0 hC1⟩

/-- Claim C5 witness at the scenario texture clay 30, sand 40, om 2. -/
theorem swc_order_on_domain_witness :
    pwpcal 30 40 2 ≤ fccal 30 40 2 ∧ fccal 30 40 2 ≤ satcal 30 40 2 :=
  swc_order_on_domain 30 40 2 (by norm_num) (by norm_num) (by norm_num)
    (by norm_num) (by norm_num) (by norm_num)

end PyWaterBal
